import Mathlib

/-!
Shallow embedding of the experimentation subsystem of the Article-generation
repository (`src/article_generation/experimentation/experiment.py` and
`feedback.py`), together with proofs about the behaviour described in the
specification.

Modelling conventions:
* Python `dict`s (insertion ordered) are association lists `List (String × α)`;
  `d[k] = v` on a fresh key appends, lookup is first-match.
* Python `float` values that the store merely carries or combines with
  `+ - * /` are modelled as `ℚ` (exact arithmetic).
* `numpy.sqrt` and `scipy.stats.ttest_ind` are mathematical library routines,
  not repository code; they are passed in as function parameters.
* `datetime.datetime` values are modelled by a natural number (microseconds
  since the epoch); `isoformat`/`fromisoformat` are modelled by a concrete
  decimal codec which, like the ISO-8601 codec, is injective with a total
  left inverse on its image.
* Raised exceptions are modelled with `Except PyErr`; a method that in Python
  mutates `self` returns, on success, the updated store state.  All methods
  below raise, if at all, before any mutation, so an `Except.error` result
  leaves the caller holding the unchanged state.
-/

namespace ArticleGen

/-- Python-style exceptions raised by the experimentation subsystem. -/
inductive PyErr where
  | keyError (key : String)
  | typeError
  | valueErrorMissingMetrics (names : List String)
  | valueErrorUnknownMetric (name : String)
  | valueErrorNoControlData
  | valueErrorMissingCriteria (names : List String)
  | valueErrorInvalidRating (rating : Int) (criterion : String)
  | valueErrorNoTrials
  deriving Repr, DecidableEq

/-! ### Association-list dictionaries -/

/-- First-match lookup in an association list (Python `d[k]` / `k in d`). -/
def dlookup (k : String) : List (String × α) → Option α
  | [] => none
  | (k₁, v₁) :: rest => if k₁ = k then some v₁ else dlookup k rest

/-- Insert-or-update (Python `d[k] = v`): updates the first binding of `k`
in place, otherwise appends. -/
def dinsert (k : String) (v : α) : List (String × α) → List (String × α)
  | [] => [(k, v)]
  | (k₁, v₁) :: rest => if k₁ = k then (k, v) :: rest else (k₁, v₁) :: dinsert k v rest

/-- The keys of an association list, in order. -/
def dkeys (l : List (String × α)) : List String := l.map Prod.fst

/-! ### Decimal timestamp codec (model of `datetime.isoformat` / `fromisoformat`) -/

/-- Little-endian base-10 digits of `n`, with explicit fuel so that the
definition is structural and evaluates by `rfl`. -/
def natDigitsRev (fuel : Nat) (n : Nat) : List Nat :=
  match fuel with
  | 0 => []
  | fuel + 1 => if n = 0 then [] else n % 10 :: natDigitsRev fuel (n / 10)

/-- Value of a little-endian digit list. -/
def parseRev : List Nat → Nat
  | [] => 0
  | d :: ds => d + 10 * parseRev ds

/-- The character for a decimal digit. -/
def digitChar (d : Nat) : Char := Char.ofNat (48 + d)

/-- The decimal digit of a character. -/
def charVal (c : Char) : Nat := c.toNat - 48

/-- Model of `datetime.isoformat`: renders the timestamp in decimal. -/
def isoformat (n : Nat) : String := String.mk ((natDigitsRev (n + 1) n).reverse.map digitChar)

/-- Model of `datetime.fromisoformat`: parses a decimal string, failing on
any non-digit character. -/
def fromisoformat (s : String) : Option Nat :=
  if s.data.all Char.isDigit then some (parseRev ((s.data.map charVal).reverse)) else none

/-! ### Numeric helpers (`numpy.mean`, `numpy.std`, Python `min`/`max`) -/

/-- `numpy.mean` over exact rationals. -/
def qmean (xs : List ℚ) : ℚ := xs.sum / xs.length

/-- The population variance; `numpy.std` is `sqrtQ (qvar xs)` for the
supplied square-root routine. -/
def qvar (xs : List ℚ) : ℚ := ((xs.map (fun x => (x - qmean xs) ^ 2)).sum) / xs.length

/-- Python `min` over a list with a default for the empty list (all uses
below are guarded so the list is nonempty). -/
def listMinD (d : Nat) : List Nat → Nat
  | [] => d
  | x :: xs => xs.foldl Nat.min x

/-- Python `max` over a list with a default for the empty list. -/
def listMaxD (d : Nat) : List Nat → Nat
  | [] => d
  | x :: xs => xs.foldl Nat.max x

/-- Python `max(pairs, key=lambda p: p[1])` starting from `best`: ties keep
the earlier element, a strictly greater value replaces it. -/
def pyMaxByVal [LinearOrder β] (best : String × β) : List (String × β) → String × β
  | [] => best
  | p :: rest => pyMaxByVal (if p.2 > best.2 then p else best) rest

/-! ### Experiment data model (`experiment.py`) -/

/-- Arbitrary metadata dictionaries; the store never inspects their values. -/
abbrev Metadata := List (String × String)

/-- `Variant` dataclass (`experiment.py` lines 13-22). -/
structure Variant where
  id : String
  name : String
  prompt_template : String
  model : String
  temperature : ℚ
  max_tokens : Int
  metadata : Metadata
  deriving Repr, DecidableEq

/-- `Trial` dataclass (`experiment.py` lines 24-34); the timestamp is a
`datetime` modelled as a natural number. -/
structure Trial where
  id : String
  variant_id : String
  timestamp : Nat
  title : String
  keywords : List String
  metrics : List (String × ℚ)
  evaluation : Metadata
  metadata : Metadata
  deriving Repr, DecidableEq

/-- One variant entry of the persisted JSON document, exactly the dict built
by `_save_experiment`. -/
structure VariantDoc where
  id : String
  name : String
  prompt_template : String
  model : String
  temperature : ℚ
  max_tokens : Int
  metadata : Metadata
  deriving Repr, DecidableEq

/-- One trial entry of the persisted JSON document: the timestamp is stored
as its ISO string. -/
structure TrialDoc where
  id : String
  variant_id : String
  timestamp : String
  title : String
  keywords : List String
  metrics : List (String × ℚ)
  evaluation : Metadata
  metadata : Metadata
  deriving Repr, DecidableEq

/-- The persisted JSON document written by `_save_experiment`. -/
structure ExperimentDoc where
  name : String
  description : String
  metrics : List String
  variants : List (String × VariantDoc)
  trials : List TrialDoc
  deriving Repr, DecidableEq

/-- In-memory state of an `Experiment` instance, together with the persisted
document of its backing file (`none` when no file exists). -/
structure ExperimentState where
  name : String
  description : String
  metrics : List String
  variants : List (String × Variant)
  trials : List Trial
  disk : Option ExperimentDoc
  deriving Repr, DecidableEq

/-- The variant dict written by `_save_experiment` (lines 294-305). -/
def variantToDoc (v : Variant) : VariantDoc :=
  { id := v.id, name := v.name, prompt_template := v.prompt_template,
    model := v.model, temperature := v.temperature,
    max_tokens := v.max_tokens, metadata := v.metadata }

/-- The trial dict written by `_save_experiment` (lines 306-318). -/
def trialToDoc (t : Trial) : TrialDoc :=
  { id := t.id, variant_id := t.variant_id, timestamp := isoformat t.timestamp,
    title := t.title, keywords := t.keywords, metrics := t.metrics,
    evaluation := t.evaluation, metadata := t.metadata }

/-- `_save_experiment` (lines 288-323): the document serialized to
`<experiment_dir>/<name>.json`. -/
def saveDoc (s : ExperimentState) : ExperimentDoc :=
  { name := s.name, description := s.description, metrics := s.metrics,
    variants := s.variants.map (fun p => (p.1, variantToDoc p.2)),
    trials := s.trials.map trialToDoc }

/-- Write-through persistence: every mutation ends by replacing the backing
document with the serialization of the new state. -/
def withSave (s : ExperimentState) : ExperimentState := { s with disk := some (saveDoc s) }

/-- Variant reconstruction in `_load_experiment` (lines 334-346). -/
def variantOfDoc (v : VariantDoc) : Variant :=
  { id := v.id, name := v.name, prompt_template := v.prompt_template,
    model := v.model, temperature := v.temperature,
    max_tokens := v.max_tokens, metadata := v.metadata }

/-- Trial reconstruction in `_load_experiment` (lines 348-361);
`datetime.fromisoformat` can fail on a malformed string. -/
def trialOfDoc (t : TrialDoc) : Option Trial :=
  (fromisoformat t.timestamp).map fun ts =>
    { id := t.id, variant_id := t.variant_id, timestamp := ts,
      title := t.title, keywords := t.keywords, metrics := t.metrics,
      evaluation := t.evaluation, metadata := t.metadata }

/-- `Experiment.__init__` (lines 39-65): fresh collections, then
`_load_experiment` replaces them when a backing document exists.  `stored` is
the content of `<experiment_dir>/<name>.json`, `none` when the file is
absent; `none` as a result models a parse failure raised during load. -/
def initExperiment (name description : String) (metrics : List String)
    (stored : Option ExperimentDoc) : Option ExperimentState :=
  match stored with
  | none =>
    some { name := name, description := description, metrics := metrics,
           variants := [], trials := [], disk := none }
  | some doc =>
    match doc.trials.mapM trialOfDoc with
    | none => none
    | some trials =>
      some { name := name, description := description, metrics := metrics,
             variants := doc.variants.map (fun p => (p.1, variantOfDoc p.2)),
             trials := trials, disk := some doc }

/-- `Experiment.add_variant` (lines 67-101).  `freshId` stands for the
`uuid.uuid4()` call. -/
def addVariant (s : ExperimentState) (freshId : String) (name prompt_template model : String)
    (temperature : ℚ) (max_tokens : Int) (metadata : Metadata) : String × ExperimentState :=
  let v : Variant :=
    { id := freshId, name := name, prompt_template := prompt_template,
      model := model, temperature := temperature, max_tokens := max_tokens,
      metadata := metadata }
  (freshId, withSave { s with variants := dinsert freshId v s.variants })

/-- `Experiment.record_trial` (lines 103-142).  `freshId` stands for
`uuid.uuid4()` and `now` for `datetime.datetime.now()`.  Validation happens
before any mutation; note that `variant_id` is not validated. -/
def recordTrial (s : ExperimentState) (freshId : String) (now : Nat)
    (variant_id title : String) (keywords : List String) (metrics : List (String × ℚ))
    (evaluation metadata : Metadata) : Except PyErr (String × ExperimentState) :=
  let missing := s.metrics.filter fun m => (dlookup m metrics).isNone
  if missing ≠ [] then .error (.valueErrorMissingMetrics missing)
  else
    let t : Trial :=
      { id := freshId, variant_id := variant_id, timestamp := now,
        title := title, keywords := keywords, metrics := metrics,
        evaluation := evaluation, metadata := metadata }
    .ok (freshId, withSave { s with trials := s.trials ++ [t] })

/-- The trials of one variant, in order (the repeated list comprehension
`[t.metrics[metric] for t in self.trials if t.variant_id == vid]` first
filters by variant). -/
def variantTrials (trials : List Trial) (vid : String) : List Trial :=
  trials.filter fun t => t.variant_id = vid

/-- `t.metrics[metric]` for each trial, left to right; the dict subscript
raises `KeyError` when the metric is absent, aborting the comprehension. -/
def collectMetric (metric : String) : List Trial → Except PyErr (List ℚ)
  | [] => .ok []
  | t :: rest =>
    match dlookup metric t.metrics with
    | none => .error (.keyError metric)
    | some q =>
      match collectMetric metric rest with
      | .error e => .error e
      | .ok qs => .ok (q :: qs)

/-- The metric values of one variant's trials, with `KeyError` propagation. -/
def variantData (trials : List Trial) (vid metric : String) : Except PyErr (List ℚ) :=
  collectMetric metric (variantTrials trials vid)

/-! ### `Experiment.analyze_results(metric, control_variant)` (lines 144-231) -/

/-- One entry of `results["variants"]`.  The control entry (lines 177-182)
lacks the comparison fields, hence the `Option`s. -/
structure VariantStats where
  name : String
  sample_size : Nat
  mean : ℚ
  std : ℚ
  p_value : Option ℚ
  effect_size : Option ℚ
  significant : Option Bool
  improvement : Option ℚ
  deriving Repr, DecidableEq

/-- `results["summary"]` (lines 221-229). -/
structure AnalyzeSummary where
  total_trials : Nat
  start_date : Nat
  end_date : Nat
  significant_improvements : Nat
  deriving Repr, DecidableEq

/-- The full result dictionary of the parameterized `analyze_results`. -/
structure AnalyzeReport where
  metric : String
  control : String
  variants : List (String × VariantStats)
  summary : AnalyzeSummary
  deriving Repr, DecidableEq

/-- The comparison entry built for a non-control variant (lines 198-218).
`sqrtQ` models `numpy.sqrt` and `pv` is the `scipy.stats.ttest_ind` p-value
for (control data, variant data). -/
def variantEntry (sqrtQ : ℚ → ℚ) (v : Variant) (cmean cstd : ℚ) (vdata : List ℚ)
    (pv : ℚ) : VariantStats :=
  let vmean := qmean vdata
  let vstd := sqrtQ (qvar vdata)
  let pooled := sqrtQ ((cstd ^ 2 + vstd ^ 2) / 2)
  { name := v.name, sample_size := vdata.length, mean := vmean, std := vstd,
    p_value := some pv, effect_size := some ((vmean - cmean) / pooled),
    significant := some (decide (pv < 5 / 100)),
    improvement := some ((vmean / cmean - 1) * 100) }

/-- The loop of lines 184-218: walk the variants in order, skip the control
and any variant without trial data, and emit a comparison entry for the
rest.  `KeyError` from a trial lacking the metric propagates. -/
def compareEntries (sqrtQ : ℚ → ℚ) (ttestP : List ℚ → List ℚ → ℚ)
    (trials : List Trial) (metric control : String) (cdata : List ℚ)
    (cmean cstd : ℚ) : List (String × Variant) → Except PyErr (List (String × VariantStats))
  | [] => .ok []
  | (vid, v) :: rest =>
    if vid = control then compareEntries sqrtQ ttestP trials metric control cdata cmean cstd rest
    else
      match variantData trials vid metric with
      | .error e => .error e
      | .ok vdata =>
        if vdata = [] then compareEntries sqrtQ ttestP trials metric control cdata cmean cstd rest
        else
          match compareEntries sqrtQ ttestP trials metric control cdata cmean cstd rest with
          | .error e => .error e
          | .ok es => .ok ((vid, variantEntry sqrtQ v cmean cstd vdata (ttestP cdata vdata)) :: es)

/-- `Experiment.analyze_results(metric, control_variant)` (lines 144-231).
On success it returns the report and the (untouched) state; the method never
mutates the store and never saves. -/
def analyzeResults (sqrtQ : ℚ → ℚ) (ttestP : List ℚ → List ℚ → ℚ)
    (s : ExperimentState) (metric control : String) :
    Except PyErr (AnalyzeReport × ExperimentState) :=
  if metric ∉ s.metrics then .error (.valueErrorUnknownMetric metric)
  else
    match variantData s.trials control metric with
    | .error e => .error e
    | .ok cdata =>
      if cdata = [] then .error .valueErrorNoControlData
      else
        match dlookup control s.variants with
        | none => .error (.keyError control)
        | some cv =>
          match compareEntries sqrtQ ttestP s.trials metric control cdata
              (qmean cdata) (sqrtQ (qvar cdata)) s.variants with
          | .error e => .error e
          | .ok es =>
            let controlEntry : VariantStats :=
              { name := cv.name, sample_size := cdata.length, mean := qmean cdata,
                std := sqrtQ (qvar cdata), p_value := none, effect_size := none,
                significant := none, improvement := none }
            let entries := (control, controlEntry) :: es
            let summary : AnalyzeSummary :=
              { total_trials := s.trials.length,
                start_date := listMinD 0 (s.trials.map (·.timestamp)),
                end_date := listMaxD 0 (s.trials.map (·.timestamp)),
                significant_improvements :=
                  (entries.filter fun p =>
                    (p.2.significant.getD false) && decide (p.2.improvement.getD 0 > 0)).length }
            .ok ({ metric := metric, control := control, variants := entries,
                   summary := summary }, s)

/-! ### `Experiment.get_best_variant` (lines 233-258) -/

/-- The `variant_means` dict (lines 245-253): variants without trial data
get no entry. -/
def variantMeans (trials : List Trial) (metric : String) :
    List (String × Variant) → Except PyErr (List (String × ℚ))
  | [] => .ok []
  | (vid, _) :: rest =>
    match variantData trials vid metric with
    | .error e => .error e
    | .ok d =>
      match variantMeans trials metric rest with
      | .error e => .error e
      | .ok ms => .ok (if d = [] then ms else (vid, qmean d) :: ms)

/-- `Experiment.get_best_variant` (lines 233-258): `None` when there are no
trials or no variant has data; otherwise the first variant attaining the
maximal mean (Python `max` keeps the first maximal item). -/
def getBestVariant (s : ExperimentState) (metric : String) :
    Except PyErr (Option String × ExperimentState) :=
  if s.trials = [] then .ok (none, s)
  else
    match variantMeans s.trials metric s.variants with
    | .error e => .error e
    | .ok [] => .ok (none, s)
    | .ok (m :: ms) => .ok (some (pyMaxByVal m ms).1, s)

/-! ### `Experiment.to_dataframe` (lines 260-286) -/

/-- One row of the dataframe built by `to_dataframe`. -/
structure DataRow where
  trial_id : String
  variant_id : String
  variant_name : String
  timestamp : Nat
  title : String
  keywords : String
  metrics : List (String × ℚ)
  model : String
  temperature : ℚ
  deriving Repr, DecidableEq

/-- `Experiment.to_dataframe` (lines 260-286); `self.variants[trial.variant_id]`
raises `KeyError` for an unregistered variant id. -/
def toDataframe (s : ExperimentState) : Except PyErr (List DataRow × ExperimentState) :=
  match s.trials.mapM (fun t =>
      match dlookup t.variant_id s.variants with
      | none => Except.error (PyErr.keyError t.variant_id)
      | some v => Except.ok
          { trial_id := t.id, variant_id := t.variant_id, variant_name := v.name,
            timestamp := t.timestamp, title := t.title,
            keywords := String.intercalate "," t.keywords, metrics := t.metrics,
            model := v.model, temperature := v.temperature : DataRow }) with
  | .error e => .error e
  | .ok rows => .ok (rows, s)

/-- The store state a caller observes after a call: the updated state on
normal return, the unchanged input state when the method raised (every
method below validates before mutating). -/
def afterE (s : σ) (r : Except PyErr (α × σ)) : σ :=
  match r with
  | .ok (_, s₁) => s₁
  | .error _ => s

/-- The `results["variants"]` mapping of a successful analysis (empty when
the call raised). -/
def analyzeVariantsOf (r : Except PyErr (AnalyzeReport × ExperimentState)) :
    List (String × VariantStats) :=
  match r with
  | .ok (rpt, _) => rpt.variants
  | .error _ => []

/-! ### Feedback data model (`feedback.py`) -/

/-- A single entry of a criterion's rating scale.  Throughout the repository
(its tests included) `scale` is a Python *list of dicts* such as
`[{"1": "Poor"}, {"5": "Excellent"}]`; each element is therefore a dict,
modelled as an association list. -/
abbrev ScaleEntry := List (String × String)

/-- `FeedbackCriteria` dataclass (`feedback.py` lines 10-17). -/
structure FeedbackCriteria where
  id : String
  name : String
  description : String
  scale : List ScaleEntry
  weight : ℚ
  deriving Repr, DecidableEq

/-- `FeedbackResponse` dataclass (`feedback.py` lines 19-28). -/
structure FeedbackResponse where
  id : String
  article_id : String
  evaluator_id : String
  timestamp : Nat
  ratings : List (String × Int)
  comments : String
  metadata : Metadata
  deriving Repr, DecidableEq

/-- One response entry of the persisted feedback document (timestamp stored
as its ISO string). -/
structure ResponseDoc where
  id : String
  article_id : String
  evaluator_id : String
  timestamp : String
  ratings : List (String × Int)
  comments : String
  metadata : Metadata
  deriving Repr, DecidableEq

/-- The document written by `_save_feedback_data` (lines 223-252). -/
structure FeedbackDoc where
  criteria : List (String × FeedbackCriteria)
  responses : List ResponseDoc
  deriving Repr, DecidableEq

/-- In-memory state of a `FeedbackManager` instance plus its persisted
document. -/
structure FeedbackState where
  criteria : List (String × FeedbackCriteria)
  responses : List FeedbackResponse
  disk : Option FeedbackDoc
  deriving Repr, DecidableEq

/-- The response dict written by `_save_feedback_data` (lines 236-247). -/
def responseToDoc (r : FeedbackResponse) : ResponseDoc :=
  { id := r.id, article_id := r.article_id, evaluator_id := r.evaluator_id,
    timestamp := isoformat r.timestamp, ratings := r.ratings,
    comments := r.comments, metadata := r.metadata }

/-- `_save_feedback_data` (lines 223-252): the serialized document.  The
criterion dict written to disk carries exactly the criterion's fields. -/
def saveFeedbackDoc (fs : FeedbackState) : FeedbackDoc :=
  { criteria := fs.criteria, responses := fs.responses.map responseToDoc }

/-- Write-through persistence for the feedback store. -/
def withFeedbackSave (fs : FeedbackState) : FeedbackState :=
  { fs with disk := some (saveFeedbackDoc fs) }

/-- Python `int(v)` where `v` is a dict: unconditionally a `TypeError`
(`int()` accepts only strings, bytes-like objects and numbers).  This is the
coercion `record_feedback` applies to every element of `criterion.scale`
(line 107), whose elements are dicts in every use in the repository. -/
def intOfScaleEntry (_ : ScaleEntry) : Except PyErr Int := .error .typeError

/-- The rating-validation loop of `record_feedback` (lines 104-112). -/
def validateRatings (criteria : List (String × FeedbackCriteria)) :
    List (String × Int) → Except PyErr Unit
  | [] => .ok ()
  | (cid, rating) :: rest =>
    match dlookup cid criteria with
    | none => .error (.keyError cid)
    | some c =>
      match c.scale.mapM intOfScaleEntry with
      | .error e => .error e
      | .ok valid =>
        if rating ∈ valid then validateRatings criteria rest
        else .error (.valueErrorInvalidRating rating c.name)

/-- `FeedbackManager.record_feedback` (lines 79-125).  `freshId` stands for
`uuid.uuid4()` and `now` for `datetime.datetime.now()`. -/
def recordFeedback (fs : FeedbackState) (freshId : String) (now : Nat)
    (article_id evaluator_id : String) (ratings : List (String × Int))
    (comments : String) (metadata : Metadata) : Except PyErr (String × FeedbackState) :=
  let missing := (dkeys fs.criteria).filter fun cid => (dlookup cid ratings).isNone
  if missing ≠ [] then .error (.valueErrorMissingCriteria missing)
  else
    match validateRatings fs.criteria ratings with
    | .error e => .error e
    | .ok _ =>
      let r : FeedbackResponse :=
        { id := freshId, article_id := article_id, evaluator_id := evaluator_id,
          timestamp := now, ratings := ratings, comments := comments,
          metadata := metadata }
      .ok (freshId, withFeedbackSave { fs with responses := fs.responses ++ [r] })

/-- `FeedbackManager.get_article_feedback` (lines 127-136). -/
def getArticleFeedback (fs : FeedbackState) (article_id : String) :
    List FeedbackResponse × FeedbackState :=
  (fs.responses.filter fun r => r.article_id = article_id, fs)

/-- `FeedbackManager.get_evaluator_feedback` (lines 138-147). -/
def getEvaluatorFeedback (fs : FeedbackState) (evaluator_id : String) :
    List FeedbackResponse × FeedbackState :=
  (fs.responses.filter fun r => r.evaluator_id = evaluator_id, fs)

/-- The ratings given to `article_id` for the criterion stored under key
`cid`, across the responses that include that key (lines 167-171). -/
def criterionRatings (responses : List FeedbackResponse) (cid : String) : List Int :=
  responses.filterMap fun r => dlookup cid r.ratings

/-- The per-criterion averaging loop of lines 166-173, accumulating into the
`scores` dict. -/
def scoresLoop (responses : List FeedbackResponse) :
    List (String × FeedbackCriteria) → List (String × ℚ) → List (String × ℚ)
  | [], sc => sc
  | p :: rest, sc =>
    let rs := criterionRatings responses p.1
    scoresLoop responses rest
      (if rs = [] then sc else dinsert p.2.name (((rs.sum : ℚ)) / rs.length) sc)

/-- The `scores` dict after the per-criterion loop (lines 162-173). -/
def criterionScores (fs : FeedbackState) (responses : List FeedbackResponse) :
    List (String × ℚ) :=
  scoresLoop responses fs.criteria []

/-- `FeedbackManager.calculate_article_score` (lines 149-184). -/
def calculateArticleScore (fs : FeedbackState) (article_id : String) :
    List (String × ℚ) × FeedbackState :=
  let responses := (getArticleFeedback fs article_id).1
  if responses = [] then ([], fs)
  else
    let total_weight := (fs.criteria.map fun p => p.2.weight).sum
    let scores := criterionScores fs responses
    if scores = [] then (scores, fs)
    else
      let weighted_sum :=
        (fs.criteria.filterMap fun p =>
          (dlookup p.2.name scores).map fun sc => sc * p.2.weight).sum
      (dinsert "overall" (weighted_sum / total_weight) scores, fs)

/-- Per-criterion entry of `get_feedback_stats` (lines 207-219). -/
structure CriterionStats where
  count : Nat
  mean : ℚ
  minRating : Int
  maxRating : Int
  deriving Repr, DecidableEq

/-- The dictionary returned by `get_feedback_stats` when responses exist. -/
structure FeedbackStats where
  total_responses : Nat
  unique_articles : Nat
  unique_evaluators : Nat
  criteria_stats : List (String × CriterionStats)
  time_start : Nat
  time_end : Nat
  deriving Repr, DecidableEq

/-- Python `min` over a nonempty list of integers, with a default for `[]`. -/
def intMinD (d : Int) : List Int → Int
  | [] => d
  | x :: xs => xs.foldl min x

/-- Python `max` over a nonempty list of integers, with a default for `[]`. -/
def intMaxD (d : Int) : List Int → Int
  | [] => d
  | x :: xs => xs.foldl max x

/-- `FeedbackManager.get_feedback_stats` (lines 186-221); `none` models the
empty dict returned when there are no responses. -/
def getFeedbackStats (fs : FeedbackState) : Option FeedbackStats × FeedbackState :=
  if fs.responses = [] then (none, fs)
  else
    let stats : FeedbackStats :=
      { total_responses := fs.responses.length,
        unique_articles := ((fs.responses.map fun r => r.article_id).eraseDups).length,
        unique_evaluators := ((fs.responses.map fun r => r.evaluator_id).eraseDups).length,
        criteria_stats := fs.criteria.foldl
          (fun sc p =>
            let rs := criterionRatings fs.responses p.1
            if rs = [] then sc
            else
              dinsert p.2.name
                { count := rs.length, mean := ((rs.sum : ℚ)) / rs.length,
                  minRating := intMinD 0 rs, maxRating := intMaxD 0 rs } sc) [],
        time_start := listMinD 0 (fs.responses.map fun r => r.timestamp),
        time_end := listMaxD 0 (fs.responses.map fun r => r.timestamp) }
    (some stats, fs)

/-! ### The parameterless, baseline-relative `analyze_results()` -/

/-- Python `str.lower()` (character-wise lowercasing). -/
def strLower (s : String) : String := String.mk (s.data.map Char.toLower)

/-- Report of the parameterless `analyze_results()`:
`{total_trials, baseline_variant, variant_performance}`, the performance
mapping keyed by variant name and, per variant, by metric name. -/
structure BaselineReport where
  total_trials : Nat
  baseline_variant : Option String
  variant_performance : List (String × List (String × ℚ))
  deriving Repr, DecidableEq

/-- First element of a nonempty pair list attaining the maximal second
component (ties keep the first encountered). -/
def argmaxFirst [LinearOrder β] : List (String × β) → Option String
  | [] => none
  | p :: rest => some (pyMaxByVal p rest).1

/-- The values of `metric` among a variant's trials. -/
def metricValues (trials : List Trial) (vid metric : String) : List ℚ :=
  (variantTrials trials vid).filterMap fun t => dlookup metric t.metrics

/-- Modelled from the spec: the repository's history contains a second
implementation variant of `experiment.py` exposing a parameterless,
baseline-relative `analyze_results()`; that file is not in the repository
snapshot — only its caller `run_experiment.py` is — so this definition
follows §4.1 of the specification word for word:
1. with no trials, return `total_trials = 0` and an empty performance map;
2. otherwise select as baseline the registered variant whose name equals
   `"baseline"` case-insensitively, provided it has at least one trial;
3. else fall back to the variant with the greatest number of trials (first
   encountered on a tie); fail when the selected baseline has no trials;
4. report, for every other variant with at least one trial and for every
   declared metric with data on both sides,
   `(variant_mean / baseline_mean) - 1`, keyed by variant name. -/
def analyzeResultsBaseline (s : ExperimentState) : Except PyErr BaselineReport :=
  if s.trials = [] then
    .ok { total_trials := 0, baseline_variant := none, variant_performance := [] }
  else
    let namedBaseline := s.variants.find? fun p => strLower p.2.name = "baseline"
    let chosen : Option String :=
      match namedBaseline with
      | some (bid, _) => if variantTrials s.trials bid ≠ [] then some bid else none
      | none => none
    let baselineId : Option String :=
      match chosen with
      | some bid => some bid
      | none => argmaxFirst (s.variants.map fun p => (p.1, (variantTrials s.trials p.1).length))
    match baselineId with
    | none => .error .valueErrorNoTrials
    | some bid =>
      if variantTrials s.trials bid = [] then .error .valueErrorNoTrials
      else
        let perf := s.variants.filterMap fun p =>
          if p.1 = bid then none
          else if variantTrials s.trials p.1 = [] then none
          else
            some (p.2.name, s.metrics.filterMap fun m =>
              let bvals := metricValues s.trials bid m
              let vvals := metricValues s.trials p.1 m
              if bvals = [] ∨ vvals = [] then none
              else some (m, qmean vvals / qmean bvals - 1))
        .ok { total_trials := s.trials.length,
              baseline_variant := (dlookup bid s.variants).map fun v => v.name,
              variant_performance := perf }

/-! ### Concrete example stores used by witnesses and counterexamples -/

/-- Checks whether an `Except` result is a normal return. -/
def isOkE : Except PyErr α → Bool
  | .ok _ => true
  | .error _ => false

/-- Python `int(str)` for a nonnegative decimal numeral (the shape of every
scale key in the repository). -/
def strToInt? (s : String) : Option Int :=
  if s.data ≠ [] ∧ s.data.all Char.isDigit then
    some ((parseRev ((s.data.map charVal).reverse) : Nat) : Int)
  else none

/-- The allowed rating values the specification ascribes to a scale: the
keys of its entries, coerced to integers. -/
def specScaleValues (scale : List ScaleEntry) : List Int :=
  (scale.map fun e => (dkeys e).filterMap strToInt?).flatten

/-- An experiment with one declared metric and no variants or trials. -/
def exMetricsOnly : ExperimentState :=
  { name := "exp", description := "d", metrics := ["m"], variants := [],
    trials := [], disk := none }

/-- A trial factory for the examples. -/
def exTrial (tid vid : String) (ts : Nat) (score : ℚ) : Trial :=
  { id := tid, variant_id := vid, timestamp := ts, title := "T",
    keywords := ["k"], metrics := [("structure_score", score)],
    evaluation := [], metadata := [] }

/-- A variant factory for the examples (integer temperature so that
kernel evaluation of equality tests stays cheap). -/
def exVariant (vid nm : String) : Variant :=
  { id := vid, name := nm, prompt_template := "p", model := "mdl",
    temperature := 1, max_tokens := 4096, metadata := [] }

/-- The best-variant example of the specification: variant1 has one trial
with `structure_score` 9, variant2 one trial with 7. -/
def exBest : ExperimentState :=
  { name := "exp", description := "d", metrics := ["structure_score"],
    variants := [("v1", exVariant "v1" "variant1"), ("v2", exVariant "v2" "variant2")],
    trials := [exTrial "t1" "v1" 1 9, exTrial "t2" "v2" 2 7], disk := none }

/-- A two-variant experiment with a control and a better test variant. -/
def exCompare : ExperimentState :=
  { name := "exp", description := "d", metrics := ["structure_score"],
    variants := [("c", exVariant "c" "control"), ("v", exVariant "v" "test")],
    trials := [exTrial "t1" "c" 1 10, exTrial "t2" "c" 2 10,
               exTrial "t3" "v" 3 12, exTrial "t4" "v" 4 12], disk := none }

/-- The baseline-selection example: a variant named `"baseline"` with data
and a variant `"A"` with data. -/
def exBaseline : ExperimentState :=
  { name := "exp", description := "d", metrics := ["structure_score"],
    variants := [("b", exVariant "b" "Baseline"), ("a", exVariant "a" "A")],
    trials := [exTrial "t1" "b" 1 10, exTrial "t2" "b" 2 10,
               exTrial "t3" "a" 3 12, exTrial "t4" "a" 4 12], disk := none }

/-- A feedback criterion with the repository's usual list-of-dicts scale. -/
def exCriterion (cid nm : String) (w : ℚ) : FeedbackCriteria :=
  { id := cid, name := nm, description := "d",
    scale := [[("1", "Poor")], [("5", "Excellent")]], weight := w }

/-- A feedback store with one criterion, as in `test_record_feedback`. -/
def exFeedbackOne : FeedbackState :=
  { criteria := [("c1", exCriterion "c1" "Content Quality" 1)],
    responses := [], disk := none }

/-- A response factory for the examples. -/
def exResponse (rid aid eid : String) (ts : Nat) (ratings : List (String × Int)) :
    FeedbackResponse :=
  { id := rid, article_id := aid, evaluator_id := eid, timestamp := ts,
    ratings := ratings, comments := "", metadata := [] }

/-- The weighted-score example of the specification: criteria Quality
(weight 2) and Structure (weight 1); two responses for the same article
rating Quality=4,Structure=5 and Quality=5,Structure=4. -/
def exFeedbackScore : FeedbackState :=
  { criteria := [("q", exCriterion "q" "Quality" 2), ("s", exCriterion "s" "Structure" 1)],
    responses := [exResponse "r1" "art" "e1" 1 [("q", 4), ("s", 5)],
                  exResponse "r2" "art" "e2" 2 [("q", 5), ("s", 4)]],
    disk := none }

/-! ### Lemmas about the timestamp codec -/

lemma parseRev_natDigitsRev : ∀ fuel n, n < fuel → parseRev (natDigitsRev fuel n) = n := by
  intro fuel
  induction fuel with
  | zero => intro n h; omega
  | succ fuel ih =>
    intro n h
    by_cases h0 : n = 0
    · subst h0; simp [natDigitsRev, parseRev]
    · have hdiv : n / 10 < fuel := by
        have h1 : n / 10 < n := Nat.div_lt_self (Nat.pos_of_ne_zero h0) (by omega)
        omega
      simp only [natDigitsRev, h0, if_false, parseRev, ih _ hdiv]
      omega

lemma natDigitsRev_lt (fuel n : Nat) : ∀ d ∈ natDigitsRev fuel n, d < 10 := by
  induction fuel generalizing n with
  | zero => intro d hd; simp [natDigitsRev] at hd
  | succ fuel ih =>
    intro d hd
    by_cases h0 : n = 0
    · subst h0; simp [natDigitsRev] at hd
    · simp only [natDigitsRev, h0, if_false, List.mem_cons] at hd
      rcases hd with h | h
      · subst h; exact Nat.mod_lt _ (by omega)
      · exact ih _ _ h

lemma charVal_digitChar {d : Nat} (h : d < 10) : charVal (digitChar d) = d := by
  interval_cases d <;> decide

lemma isDigit_digitChar {d : Nat} (h : d < 10) : (digitChar d).isDigit = true := by
  interval_cases d <;> decide

/-- The timestamp codec round-trips. -/
theorem fromisoformat_isoformat (n : Nat) : fromisoformat (isoformat n) = some n := by
  have hlt := natDigitsRev_lt (n + 1) n
  have hall : ((natDigitsRev (n + 1) n).reverse.map digitChar).all Char.isDigit = true := by
    rw [List.all_eq_true]
    intro c hc
    rw [List.mem_map] at hc
    obtain ⟨d, hd, rfl⟩ := hc
    exact isDigit_digitChar (hlt d (List.mem_reverse.mp hd))
  have hmap : ((natDigitsRev (n + 1) n).reverse.map digitChar).map charVal
      = (natDigitsRev (n + 1) n).reverse := by
    rw [List.map_map]
    apply List.map_congr_left ?_ |>.trans (List.map_id _)
    intro d hd
    exact charVal_digitChar (hlt d (List.mem_reverse.mp hd))
  have hdata : ∀ l : List Char, (String.mk l).data = l := fun _ => rfl
  simp only [fromisoformat, isoformat, hdata, hall, if_true, hmap,
    List.reverse_reverse]
  rw [parseRev_natDigitsRev (n + 1) n (Nat.lt_succ_self n)]

/-! ### Lemmas about association lists -/

lemma dlookup_dinsert_self (k : String) (v : α) (l : List (String × α)) :
    dlookup k (dinsert k v l) = some v := by
  induction l with
  | nil => simp [dinsert, dlookup]
  | cons p rest ih =>
    by_cases h : p.1 = k
    · simp [dinsert, dlookup, h]
    · simp [dinsert, dlookup, h, ih]

lemma dlookup_dinsert_ne {k k₁ : String} (h : k₁ ≠ k) (v : α) (l : List (String × α)) :
    dlookup k₁ (dinsert k v l) = dlookup k₁ l := by
  have hk : ¬ k = k₁ := fun hc => h hc.symm
  induction l with
  | nil => simp [dinsert, dlookup, hk]
  | cons p rest ih =>
    by_cases hp : p.1 = k
    · have hp1 : ¬ p.1 = k₁ := by rw [hp]; exact hk
      simp [dinsert, dlookup, hp, hk, hp1]
    · simp only [dinsert, hp, if_false, dlookup]
      by_cases hq : p.1 = k₁ <;> simp [hq, ih]

lemma dinsert_ne_nil (k : String) (v : α) (l : List (String × α)) :
    dinsert k v l ≠ [] := by
  cases l with
  | nil => simp [dinsert]
  | cons p rest =>
    by_cases h : p.1 = k <;> simp [dinsert, h]

lemma dlookup_eq_of_mem_nodup {l : List (String × α)} (hnd : (dkeys l).Nodup)
    {p : String × α} (hp : p ∈ l) : dlookup p.1 l = some p.2 := by
  induction l with
  | nil => simp at hp
  | cons q rest ih =>
    rw [dkeys, List.map_cons, List.nodup_cons] at hnd
    rcases List.mem_cons.mp hp with h | h
    · subst h; simp [dlookup]
    · have hne : q.1 ≠ p.1 := by
        intro he
        exact hnd.1 (he ▸ List.mem_map_of_mem Prod.fst h)
      simp only [dlookup, hne, if_false]
      exact ih hnd.2 h

lemma dlookup_eq_none_of_not_mem {l : List (String × α)} {k : String}
    (h : k ∉ dkeys l) : dlookup k l = none := by
  induction l with
  | nil => rfl
  | cons q rest ih =>
    rw [dkeys, List.map_cons, List.mem_cons] at h
    push_neg at h
    have hq : ¬ q.1 = k := fun hc => h.1 hc.symm
    simp only [dlookup, hq, if_false]
    exact ih h.2

/-- Looking up a key-preserving `filterMap` at the key of an absent source
element. -/
lemma dlookup_filterMap_not_mem {κ : α → String} {f : α → Option (String × β)}
    (hf : ∀ a q, f a = some q → q.1 = κ a) {l : List α} {k : String}
    (hk : k ∉ l.map κ) : dlookup k (l.filterMap f) = none := by
  induction l with
  | nil => rfl
  | cons a rest ih =>
    rw [List.map_cons, List.mem_cons] at hk
    push_neg at hk
    rw [List.filterMap_cons]
    cases hfa : f a with
    | none => exact ih hk.2
    | some q =>
      have hq : q.1 = κ a := hf a q hfa
      have hne : ¬ q.1 = k := by rw [hq]; exact fun hc => hk.1 hc.symm
      simp only [dlookup, hne, if_false]
      exact ih hk.2

/-- Looking up a key-preserving `filterMap` at the key of a member, when the
source keys are distinct. -/
lemma dlookup_filterMap_mem {κ : α → String} {f : α → Option (String × β)}
    (hf : ∀ a q, f a = some q → q.1 = κ a) {l : List α}
    (hnd : (l.map κ).Nodup) {a : α} (ha : a ∈ l) :
    dlookup (κ a) (l.filterMap f) = (f a).map Prod.snd := by
  induction l with
  | nil => simp at ha
  | cons b rest ih =>
    rw [List.map_cons, List.nodup_cons] at hnd
    rcases List.mem_cons.mp ha with h | h
    · subst h
      rw [List.filterMap_cons]
      cases hfa : f a with
      | none =>
        simp only [Option.map_none]
        exact dlookup_filterMap_not_mem hf hnd.1
      | some q =>
        have hq : q.1 = κ a := hf a q hfa
        simp [dlookup, hq]
    · have hne : κ b ≠ κ a := by
        intro he
        exact hnd.1 (he ▸ List.mem_map_of_mem κ h)
      rw [List.filterMap_cons]
      cases hfb : f b with
      | none => exact ih hnd.2 h
      | some q =>
        have hq : q.1 = κ b := hf b q hfb
        simp only [dlookup, hq, hne, if_false]
        exact ih hnd.2 h

/-- Summing a `filterMap` of rationals is summing the defaulted values. -/
lemma sum_filterMap_getD {f : α → Option ℚ} (l : List α) :
    (l.filterMap f).sum = (l.map fun a => (f a).getD 0).sum := by
  induction l with
  | nil => rfl
  | cons a rest ih =>
    rw [List.filterMap_cons, List.map_cons, List.sum_cons]
    cases hfa : f a with
    | none => simp [ih]
    | some q => simp [List.sum_cons, ih]

/-! ### Persistence round-trip -/

lemma variantOfDoc_variantToDoc (v : Variant) : variantOfDoc (variantToDoc v) = v := rfl

lemma trialOfDoc_trialToDoc (t : Trial) : trialOfDoc (trialToDoc t) = some t := by
  simp [trialOfDoc, trialToDoc, fromisoformat_isoformat]

lemma mapM_trialOfDoc (ts : List Trial) : (ts.map trialToDoc).mapM trialOfDoc = some ts := by
  induction ts with
  | nil => rfl
  | cons t rest ih =>
    rw [List.map_cons, List.mapM_cons, trialOfDoc_trialToDoc, ih]
    rfl

/-- C1.  Round-trip persistence: constructing a fresh `Experiment` with the
same name and experiment directory — so that `_load_experiment` reads the
document `_save_experiment` wrote — reproduces the variants mapping and the
trial list of the original instance exactly (ids, names, templates,
metadata, metric values, and timestamps through the ISO-8601 codec).  This
holds for every store state, hence for the state after any sequence of
`add_variant`/`record_trial` calls, each of which writes through `saveDoc`. -/
theorem experiment_roundtrip (s : ExperimentState) :
    initExperiment s.name s.description s.metrics (some (saveDoc s)) =
      some { s with disk := some (saveDoc s) } := by
  simp only [initExperiment, saveDoc, mapM_trialOfDoc, List.map_map]
  rw [show ((fun p : String × VariantDoc => (p.1, variantOfDoc p.2)) ∘
      fun p : String × Variant => (p.1, variantToDoc p.2)) =
      fun p : String × Variant => p from funext fun p => rfl]
  simp

/-! ### Claim C2: missing-metric rejection -/

/-- C2.  Missing-metric rejection: whenever some declared metric name is
absent from the supplied metrics mapping, `record_trial` fails with a
validation error that enumerates exactly the missing metric names, and the
trial list and persisted document are exactly as they were before the call
(no trial appended, no save). -/
theorem recordTrial_missing_metrics (s : ExperimentState) (freshId : String) (now : Nat)
    (variant_id title : String) (keywords : List String) (metrics : List (String × ℚ))
    (evaluation metadata : Metadata)
    (h : ∃ m ∈ s.metrics, dlookup m metrics = none) :
    ∃ names,
      recordTrial s freshId now variant_id title keywords metrics evaluation metadata =
        .error (.valueErrorMissingMetrics names) ∧
      (∀ m, m ∈ names ↔ m ∈ s.metrics ∧ dlookup m metrics = none) ∧
      afterE s (recordTrial s freshId now variant_id title keywords metrics evaluation metadata) = s := by
  obtain ⟨m, hm, hnone⟩ := h
  have hmem : m ∈ s.metrics.filter fun m₁ => (dlookup m₁ metrics).isNone := by
    rw [List.mem_filter]
    exact ⟨hm, by simp [hnone]⟩
  have hne : (s.metrics.filter fun m₁ => (dlookup m₁ metrics).isNone) ≠ [] := by
    intro hemp
    rw [hemp] at hmem
    simp at hmem
  refine ⟨s.metrics.filter fun m₁ => (dlookup m₁ metrics).isNone, ?_, ?_, ?_⟩
  · simp only [recordTrial, if_pos hne]
  · intro m₁
    rw [List.mem_filter, Option.isNone_iff_eq_none]
  · simp only [recordTrial, if_pos hne, afterE]

/-- Witness for C2: a store declaring metric `"m"` rejects an empty metrics
mapping. -/
theorem recordTrial_missing_metrics_witness :
    ∃ names,
      recordTrial exMetricsOnly "t1" 0 "v" "T" [] [] [] [] =
        .error (.valueErrorMissingMetrics names) ∧
      (∀ m, m ∈ names ↔ m ∈ exMetricsOnly.metrics ∧
        dlookup m ([] : List (String × ℚ)) = none) ∧
      afterE exMetricsOnly (recordTrial exMetricsOnly "t1" 0 "v" "T" [] [] [] []) =
        exMetricsOnly :=
  recordTrial_missing_metrics exMetricsOnly "t1" 0 "v" "T" [] [] [] [] ⟨"m", by decide, rfl⟩

/-! ### Claim C4: no variant-id validation in `record_trial` -/

/-- C4 counterexample: at a store with no registered variants, `record_trial`
with the unknown variant id `"ghost"` returns normally and appends a trial
referencing it, instead of failing with a lookup error. -/
theorem recordTrial_unknown_variant_accepted :
    dlookup "ghost" exMetricsOnly.variants = none ∧
    isOkE (recordTrial exMetricsOnly "t1" 0 "ghost" "T" [] [("m", 1)] [] []) = true ∧
    (afterE exMetricsOnly (recordTrial exMetricsOnly "t1" 0 "ghost" "T" [] [("m", 1)] [] [])).trials =
      [{ id := "t1", variant_id := "ghost", timestamp := 0, title := "T",
         keywords := [], metrics := [("m", 1)], evaluation := [], metadata := [] }] :=
  ⟨rfl, rfl, rfl⟩

/-- C4 (amended).  The `record_trial` of `experiment.py` performs no variant
lookup: whenever the metrics mapping covers every declared metric the call
succeeds and appends the trial — also when `variant_id` names no registered
variant — leaving the variants mapping unchanged.  (The lookup-error
behaviour belongs to the second implementation variant in the system's
history, which is not part of this snapshot.) -/
theorem recordTrial_appends_without_variant_check (s : ExperimentState) (freshId : String)
    (now : Nat) (variant_id title : String) (keywords : List String)
    (metrics : List (String × ℚ)) (evaluation metadata : Metadata)
    (h : ∀ m ∈ s.metrics, (dlookup m metrics).isSome) :
    ∃ s₁,
      recordTrial s freshId now variant_id title keywords metrics evaluation metadata =
        .ok (freshId, s₁) ∧
      s₁.trials = s.trials ++
        [{ id := freshId, variant_id := variant_id, timestamp := now, title := title,
           keywords := keywords, metrics := metrics, evaluation := evaluation,
           metadata := metadata }] ∧
      s₁.variants = s.variants := by
  have hemp : (s.metrics.filter fun m₁ => (dlookup m₁ metrics).isNone) = [] := by
    rw [List.filter_eq_nil]
    intro a ha
    have hs := h a ha
    cases hopt : dlookup a metrics with
    | none => rw [hopt] at hs; simp at hs
    | some q => simp [hopt]
  refine ⟨withSave { s with trials := s.trials ++
      [{ id := freshId, variant_id := variant_id, timestamp := now, title := title,
         keywords := keywords, metrics := metrics, evaluation := evaluation,
         metadata := metadata }] }, ?_, rfl, rfl⟩
  simp [recordTrial, hemp]

/-- Witness for the amended C4: the unknown variant id `"ghost"` is accepted
when the metrics are complete. -/
theorem recordTrial_appends_without_variant_check_witness :
    ∃ s₁,
      recordTrial exMetricsOnly "t2" 0 "ghost" "T" [] [("m", 2)] [] [] = .ok ("t2", s₁) ∧
      s₁.trials = exMetricsOnly.trials ++
        [{ id := "t2", variant_id := "ghost", timestamp := 0, title := "T",
           keywords := [], metrics := [("m", 2)], evaluation := [], metadata := [] }] ∧
      s₁.variants = exMetricsOnly.variants :=
  recordTrial_appends_without_variant_check exMetricsOnly "t2" 0 "ghost" "T" [] [("m", 2)] [] []
    (by decide)

/-! ### Claim C6: `record_feedback` rating validation -/

/-- C6 (the code at the failing input).  With the repository's scale shape —
a list of single-entry dicts, as in its own `test_record_feedback` — the
rating 5 is among the scale's key-coerced allowed values, yet
`record_feedback` raises a `TypeError` (Python `int()` applied to a dict)
instead of validating the rating and appending a response; no response is
appended.  The repository's test expects this very call to succeed. -/
theorem recordFeedback_typeError_on_valid_rating :
    5 ∈ specScaleValues (exCriterion "c1" "Content Quality" 1).scale ∧
    recordFeedback exFeedbackOne "r1" 0 "test_article" "ev" [("c1", 5)] "" [] =
      .error .typeError ∧
    (afterE exFeedbackOne
      (recordFeedback exFeedbackOne "r1" 0 "test_article" "ev" [("c1", 5)] "" [])).responses = [] :=
  ⟨by decide, rfl, rfl⟩

/-! ### Claim C10: queries do not mutate -/

/-- C10.  Every query operation — the parameterized `analyze_results`,
`get_best_variant`, `to_dataframe`, `get_article_feedback`,
`get_evaluator_feedback`, `calculate_article_score`, `get_feedback_stats` —
leaves the store state (variants, trials, criteria, responses, and the
persisted document) unchanged, whether it returns normally or raises; none
of them invokes the save routine. -/
theorem queries_leave_state_unchanged :
    (∀ (sqrtQ : ℚ → ℚ) (ttestP : List ℚ → List ℚ → ℚ) (s : ExperimentState)
      (metric control : String), afterE s (analyzeResults sqrtQ ttestP s metric control) = s) ∧
    (∀ (s : ExperimentState) (metric : String), afterE s (getBestVariant s metric) = s) ∧
    (∀ s : ExperimentState, afterE s (toDataframe s) = s) ∧
    (∀ (fs : FeedbackState) (a : String), (getArticleFeedback fs a).2 = fs) ∧
    (∀ (fs : FeedbackState) (e : String), (getEvaluatorFeedback fs e).2 = fs) ∧
    (∀ (fs : FeedbackState) (a : String), (calculateArticleScore fs a).2 = fs) ∧
    (∀ fs : FeedbackState, (getFeedbackStats fs).2 = fs) := by
  refine ⟨?_, ?_, ?_, ?_, ?_, ?_, ?_⟩
  · intro sqrtQ ttestP s metric control
    unfold analyzeResults
    repeat' split
    all_goals rfl
  · intro s metric
    unfold getBestVariant
    repeat' split
    all_goals rfl
  · intro s
    unfold toDataframe
    repeat' split
    all_goals rfl
  · intro fs a
    rfl
  · intro fs e
    rfl
  · intro fs a
    unfold calculateArticleScore
    dsimp only
    repeat' split
    all_goals rfl
  · intro fs
    unfold getFeedbackStats
    dsimp only
    repeat' split
    all_goals rfl

/-! ### Claim C8: validation and empty-data errors of `analyze_results` -/

/-- C8.  The parameterized `analyze_results(metric, control_variant)` raises
a validation error when `metric` is not among the declared metrics, raises
an empty-data error when the control variant has no trials, and in either
failure case the in-memory and persisted state is left unchanged (both
checks precede any result assembly, and the operation performs no
mutation). -/
theorem analyzeResults_error_cases (sqrtQ : ℚ → ℚ) (ttestP : List ℚ → List ℚ → ℚ)
    (s : ExperimentState) (metric control : String) :
    (metric ∉ s.metrics →
      analyzeResults sqrtQ ttestP s metric control = .error (.valueErrorUnknownMetric metric)) ∧
    (metric ∈ s.metrics → variantTrials s.trials control = [] →
      analyzeResults sqrtQ ttestP s metric control = .error .valueErrorNoControlData) ∧
    afterE s (analyzeResults sqrtQ ttestP s metric control) = s := by
  refine ⟨?_, ?_, ?_⟩
  · intro h
    unfold analyzeResults
    rw [if_pos h]
  · intro h1 h2
    have hvd : variantData s.trials control metric = .ok [] := by
      rw [variantData, h2]
      rfl
    unfold analyzeResults
    rw [if_neg (not_not_intro h1), hvd]
    rfl
  · unfold analyzeResults
    repeat' split
    all_goals rfl

/-- Witness for C8: the unknown metric `"bogus"` and, for the declared
metric `"m"`, a control variant without trials. -/
theorem analyzeResults_error_cases_witness :
    analyzeResults (fun q => q) (fun _ _ => 0) exMetricsOnly "bogus" "c" =
      .error (.valueErrorUnknownMetric "bogus") ∧
    analyzeResults (fun q => q) (fun _ _ => 0) exMetricsOnly "m" "c" =
      .error .valueErrorNoControlData :=
  ⟨(analyzeResults_error_cases (fun q => q) (fun _ _ => 0) exMetricsOnly "bogus" "c").1
      (by decide),
   (analyzeResults_error_cases (fun q => q) (fun _ _ => 0) exMetricsOnly "m" "c").2.1
      (by decide) rfl⟩

/-! ### Claim C5: weighted article scores -/

lemma scoresLoop_lookup_of_not_mem {responses : List FeedbackResponse}
    {crits : List (String × FeedbackCriteria)} {name : String}
    (h : name ∉ crits.map fun p => p.2.name) (sc : List (String × ℚ)) :
    dlookup name (scoresLoop responses crits sc) = dlookup name sc := by
  induction crits generalizing sc with
  | nil => rfl
  | cons p rest ih =>
    rw [List.map_cons, List.mem_cons] at h
    push_neg at h
    simp only [scoresLoop]
    by_cases hrs : criterionRatings responses p.1 = []
    · rw [if_pos hrs]
      exact ih h.2 sc
    · rw [if_neg hrs, ih h.2]
      exact dlookup_dinsert_ne h.1 _ sc

lemma scoresLoop_lookup_mem {responses : List FeedbackResponse}
    {crits : List (String × FeedbackCriteria)}
    (hnd : (crits.map fun p => p.2.name).Nodup)
    {p : String × FeedbackCriteria} (hmem : p ∈ crits)
    (hrs : criterionRatings responses p.1 ≠ []) (sc : List (String × ℚ)) :
    dlookup p.2.name (scoresLoop responses crits sc) =
      some ((((criterionRatings responses p.1).sum : ℚ)) /
        (criterionRatings responses p.1).length) := by
  induction crits generalizing sc with
  | nil => simp at hmem
  | cons q rest ih =>
    rw [List.map_cons, List.nodup_cons] at hnd
    rcases List.mem_cons.mp hmem with h | h
    · subst h
      simp only [scoresLoop]
      rw [if_neg hrs, scoresLoop_lookup_of_not_mem hnd.1]
      exact dlookup_dinsert_self _ _ sc
    · simp only [scoresLoop]
      by_cases hrq : criterionRatings responses q.1 = []
      · rw [if_pos hrq]
        exact ih hnd.2 h sc
      · rw [if_neg hrq]
        exact ih hnd.2 h _

lemma scoresLoop_lookup_mem_empty {responses : List FeedbackResponse}
    {crits : List (String × FeedbackCriteria)}
    (hnd : (crits.map fun p => p.2.name).Nodup)
    {p : String × FeedbackCriteria} (hmem : p ∈ crits)
    (hrs : criterionRatings responses p.1 = []) (sc : List (String × ℚ)) :
    dlookup p.2.name (scoresLoop responses crits sc) = dlookup p.2.name sc := by
  induction crits generalizing sc with
  | nil => simp at hmem
  | cons q rest ih =>
    rw [List.map_cons, List.nodup_cons] at hnd
    rcases List.mem_cons.mp hmem with h | h
    · subst h
      simp only [scoresLoop]
      rw [if_pos hrs]
      exact scoresLoop_lookup_of_not_mem hnd.1 sc
    · have hne : p.2.name ≠ q.2.name := by
        intro he
        exact hnd.1 (he ▸ List.mem_map_of_mem (fun p₁ => p₁.2.name) h)
      simp only [scoresLoop]
      by_cases hrq : criterionRatings responses q.1 = []
      · rw [if_pos hrq]
        exact ih hnd.2 h sc
      · rw [if_neg hrq, ih hnd.2 h]
        exact dlookup_dinsert_ne hne _ sc

lemma scoresLoop_ne_nil_acc {responses : List FeedbackResponse}
    {crits : List (String × FeedbackCriteria)} {sc : List (String × ℚ)}
    (hsc : sc ≠ []) : scoresLoop responses crits sc ≠ [] := by
  induction crits generalizing sc with
  | nil => exact hsc
  | cons q rest ih =>
    simp only [scoresLoop]
    by_cases hrq : criterionRatings responses q.1 = []
    · rw [if_pos hrq]
      exact ih hsc
    · rw [if_neg hrq]
      exact ih (dinsert_ne_nil _ _ _)

lemma scoresLoop_ne_nil_of_data {responses : List FeedbackResponse}
    {crits : List (String × FeedbackCriteria)}
    (h : ∃ p ∈ crits, criterionRatings responses p.1 ≠ []) (sc : List (String × ℚ)) :
    scoresLoop responses crits sc ≠ [] := by
  induction crits generalizing sc with
  | nil => simp at h
  | cons q rest ih =>
    simp only [scoresLoop]
    by_cases hrq : criterionRatings responses q.1 = []
    · rw [if_pos hrq]
      obtain ⟨p, hp, hne⟩ := h
      rcases List.mem_cons.mp hp with he | he
      · exact absurd (he ▸ hrq) (by subst he; exact hne)
      · exact ih ⟨p, he, hne⟩ sc
    · rw [if_neg hrq]
      exact scoresLoop_ne_nil_acc (dinsert_ne_nil _ _ _)

/-- C5.  `calculate_article_score` returns, for each criterion with at least
one rating for the article, the arithmetic mean of those ratings keyed by
criterion name, and an `"overall"` value equal to the sum over criteria with
data of (criterion average × criterion weight) divided by the sum of the
weights of all registered criteria. -/
theorem calculateArticleScore_spec (fs : FeedbackState) (aid : String)
    (hnd : (fs.criteria.map fun p => p.2.name).Nodup)
    (hov : ∀ p ∈ fs.criteria, p.2.name ≠ "overall")
    (hdata : ∃ p ∈ fs.criteria,
      criterionRatings (fs.responses.filter fun r => r.article_id = aid) p.1 ≠ []) :
    (∀ p ∈ fs.criteria,
      criterionRatings (fs.responses.filter fun r => r.article_id = aid) p.1 ≠ [] →
      dlookup p.2.name (calculateArticleScore fs aid).1 =
        some ((((criterionRatings (fs.responses.filter fun r => r.article_id = aid) p.1).sum : ℚ)) /
          (criterionRatings (fs.responses.filter fun r => r.article_id = aid) p.1).length)) ∧
    dlookup "overall" (calculateArticleScore fs aid).1 =
      some ((fs.criteria.map fun p =>
          if criterionRatings (fs.responses.filter fun r => r.article_id = aid) p.1 = [] then 0
          else ((((criterionRatings (fs.responses.filter fun r => r.article_id = aid) p.1).sum : ℚ)) /
            (criterionRatings (fs.responses.filter fun r => r.article_id = aid) p.1).length) *
            p.2.weight).sum /
        (fs.criteria.map fun p => p.2.weight).sum) := by
  obtain ⟨p₀, hp₀, hne₀⟩ := hdata
  have hresp : (fs.responses.filter fun r => r.article_id = aid) ≠ [] := by
    intro h
    apply hne₀
    unfold criterionRatings
    rw [h]
    rfl
  have hscne : criterionScores fs (fs.responses.filter fun r => r.article_id = aid) ≠ [] :=
    scoresLoop_ne_nil_of_data ⟨p₀, hp₀, hne₀⟩ []
  have hmain : (calculateArticleScore fs aid).1 =
      dinsert "overall"
        ((fs.criteria.filterMap fun p =>
          (dlookup p.2.name (criterionScores fs
            (fs.responses.filter fun r => r.article_id = aid))).map
              fun sc => sc * p.2.weight).sum /
          (fs.criteria.map fun p => p.2.weight).sum)
        (criterionScores fs (fs.responses.filter fun r => r.article_id = aid)) := by
    simp only [calculateArticleScore, getArticleFeedback]
    rw [if_neg hresp, if_neg hscne]
  constructor
  · intro p hp hrs
    rw [hmain, dlookup_dinsert_ne (hov p hp)]
    exact scoresLoop_lookup_mem hnd hp hrs []
  · rw [hmain, dlookup_dinsert_self]
    congr 1
    rw [sum_filterMap_getD]
    have hnum : (fs.criteria.map fun p =>
        ((dlookup p.2.name (criterionScores fs
          (fs.responses.filter fun r => r.article_id = aid))).map
            fun sc => sc * p.2.weight).getD 0) =
        fs.criteria.map fun p =>
          if criterionRatings (fs.responses.filter fun r => r.article_id = aid) p.1 = []
          then (0 : ℚ)
          else ((((criterionRatings (fs.responses.filter
              fun r => r.article_id = aid) p.1).sum : ℚ)) /
            (criterionRatings (fs.responses.filter
              fun r => r.article_id = aid) p.1).length) * p.2.weight := by
      apply List.map_congr_left
      intro p hp
      by_cases hrs : criterionRatings (fs.responses.filter fun r => r.article_id = aid) p.1 = []
      · have hl : dlookup p.2.name (criterionScores fs
            (fs.responses.filter fun r => r.article_id = aid)) = none :=
          scoresLoop_lookup_mem_empty hnd hp hrs []
        rw [hl, if_pos hrs]
        rfl
      · have hl : dlookup p.2.name (criterionScores fs
            (fs.responses.filter fun r => r.article_id = aid)) =
            some ((((criterionRatings (fs.responses.filter
                fun r => r.article_id = aid) p.1).sum : ℚ)) /
              (criterionRatings (fs.responses.filter
                fun r => r.article_id = aid) p.1).length) :=
          scoresLoop_lookup_mem hnd hp hrs []
        rw [hl, if_neg hrs]
        rfl
    rw [hnum]

/-- Witness for C5: criteria Quality (weight 2) and Structure (weight 1),
responses rating Quality=4,Structure=5 and Quality=5,Structure=4 for the
same article give Quality=4.5, Structure=4.5, overall=4.5. -/
theorem calculateArticleScore_spec_witness :
    (∀ p ∈ exFeedbackScore.criteria,
      criterionRatings (exFeedbackScore.responses.filter fun r => r.article_id = "art") p.1 ≠ [] →
      dlookup p.2.name (calculateArticleScore exFeedbackScore "art").1 =
        some ((((criterionRatings (exFeedbackScore.responses.filter
            fun r => r.article_id = "art") p.1).sum : ℚ)) /
          (criterionRatings (exFeedbackScore.responses.filter
            fun r => r.article_id = "art") p.1).length)) ∧
    dlookup "overall" (calculateArticleScore exFeedbackScore "art").1 =
      some ((exFeedbackScore.criteria.map fun p =>
          if criterionRatings (exFeedbackScore.responses.filter
              fun r => r.article_id = "art") p.1 = [] then 0
          else ((((criterionRatings (exFeedbackScore.responses.filter
              fun r => r.article_id = "art") p.1).sum : ℚ)) /
            (criterionRatings (exFeedbackScore.responses.filter
              fun r => r.article_id = "art") p.1).length) * p.2.weight).sum /
        (exFeedbackScore.criteria.map fun p => p.2.weight).sum) :=
  calculateArticleScore_spec exFeedbackScore "art" (by decide) (by decide)
    ⟨("q", exCriterion "q" "Quality" 2), by decide, by decide⟩

/-! ### Claim C7: best-variant selection -/

lemma collectMetric_ok {metric : String} {l : List Trial}
    (h : ∀ t ∈ l, (dlookup metric t.metrics).isSome) :
    collectMetric metric l = .ok (l.filterMap fun t => dlookup metric t.metrics) := by
  induction l with
  | nil => rfl
  | cons t rest ih =>
    obtain ⟨q, hq⟩ := Option.isSome_iff_exists.mp (h t (List.mem_cons_self t rest))
    simp only [collectMetric, hq, ih fun t₁ ht₁ => h t₁ (List.mem_cons_of_mem _ ht₁),
      List.filterMap_cons]

lemma variantData_ok {trials : List Trial} {vid metric : String}
    (h : ∀ t ∈ variantTrials trials vid, (dlookup metric t.metrics).isSome) :
    variantData trials vid metric = .ok (metricValues trials vid metric) :=
  collectMetric_ok h

lemma metricValues_eq_nil_iff {trials : List Trial} {vid metric : String}
    (h : ∀ t ∈ variantTrials trials vid, (dlookup metric t.metrics).isSome) :
    metricValues trials vid metric = [] ↔ variantTrials trials vid = [] := by
  unfold metricValues
  cases hvt : variantTrials trials vid with
  | nil => simp
  | cons t rest =>
    rw [hvt] at h
    obtain ⟨q, hq⟩ := Option.isSome_iff_exists.mp (h t (List.mem_cons_self t rest))
    simp [List.filterMap_cons, hq]

lemma variantMeans_ok {trials : List Trial} {metric : String}
    (h : ∀ t ∈ trials, (dlookup metric t.metrics).isSome)
    (vars : List (String × Variant)) :
    variantMeans trials metric vars = .ok (vars.filterMap fun p =>
      if variantTrials trials p.1 = [] then none
      else some (p.1, qmean (metricValues trials p.1 metric))) := by
  induction vars with
  | nil => rfl
  | cons p rest ih =>
    have hv : ∀ t ∈ variantTrials trials p.1, (dlookup metric t.metrics).isSome :=
      fun t ht => h t (List.mem_of_mem_filter ht)
    simp only [variantMeans, variantData_ok hv, ih, List.filterMap_cons]
    by_cases hd : variantTrials trials p.1 = []
    · rw [if_pos ((metricValues_eq_nil_iff hv).mpr hd), if_pos hd]
    · rw [if_neg (fun hc => hd ((metricValues_eq_nil_iff hv).mp hc)), if_neg hd]

lemma pyMaxByVal_mem [LinearOrder β] (best : String × β) (l : List (String × β)) :
    pyMaxByVal best l ∈ best :: l := by
  induction l generalizing best with
  | nil => simp [pyMaxByVal]
  | cons p rest ih =>
    simp only [pyMaxByVal]
    by_cases hc : p.2 > best.2
    · rw [if_pos hc]
      exact List.mem_cons_of_mem best (ih p)
    · rw [if_neg hc]
      rcases List.mem_cons.mp (ih best) with h | h
      · rw [h]
        exact List.mem_cons_self best _
      · exact List.mem_cons.mpr (Or.inr (List.mem_cons_of_mem p h))

lemma pyMaxByVal_ge [LinearOrder β] (best : String × β) (l : List (String × β)) :
    ∀ q ∈ best :: l, q.2 ≤ (pyMaxByVal best l).2 := by
  induction l generalizing best with
  | nil =>
    intro q hq
    rcases List.mem_cons.mp hq with h | h
    · rw [h]
      exact le_refl _
    · simp at h
  | cons p rest ih =>
    intro q hq
    simp only [pyMaxByVal]
    by_cases hc : p.2 > best.2
    · rw [if_pos hc]
      rcases List.mem_cons.mp hq with h | h
      · exact h ▸ le_trans (le_of_lt hc) (ih p p (List.mem_cons_self p rest))
      · exact ih p q h
    · rw [if_neg hc]
      rcases List.mem_cons.mp hq with h | h
      · exact h ▸ ih best best (List.mem_cons_self best rest)
      · rcases List.mem_cons.mp h with h₁ | h₁
        · exact h₁ ▸ le_trans (not_lt.mp hc) (ih best best (List.mem_cons_self best rest))
        · exact ih best q (List.mem_cons.mpr (Or.inr h₁))

/-- C7.  `get_best_variant(metric)` returns `None` when the experiment has
no trials at all; and whenever some registered variant has at least one
trial, it returns the id of a registered variant with at least one trial
whose trial mean for `metric` is maximal among all registered variants with
at least one trial. -/
theorem getBestVariant_spec (s : ExperimentState) (metric : String)
    (hall : ∀ t ∈ s.trials, (dlookup metric t.metrics).isSome) :
    (s.trials = [] → getBestVariant s metric = .ok (none, s)) ∧
    ((∃ p ∈ s.variants, variantTrials s.trials p.1 ≠ []) →
      ∃ best, getBestVariant s metric = .ok (some best, s) ∧
        (∃ p ∈ s.variants, p.1 = best ∧ variantTrials s.trials p.1 ≠ []) ∧
        ∀ p ∈ s.variants, variantTrials s.trials p.1 ≠ [] →
          qmean (metricValues s.trials p.1 metric) ≤
            qmean (metricValues s.trials best metric)) := by
  constructor
  · intro h
    unfold getBestVariant
    rw [if_pos h]
  · intro hex
    obtain ⟨p₀, hp₀, hne₀⟩ := hex
    have htr : s.trials ≠ [] := by
      intro h
      apply hne₀
      rw [variantTrials, h]
      rfl
    have hg : ∀ p : String × Variant, p ∈ s.variants → variantTrials s.trials p.1 ≠ [] →
        (p.1, qmean (metricValues s.trials p.1 metric)) ∈
          (s.variants.filterMap fun p₁ =>
            if variantTrials s.trials p₁.1 = [] then none
            else some (p₁.1, qmean (metricValues s.trials p₁.1 metric))) := by
      intro p hp hne
      exact List.mem_filterMap.mpr ⟨p, hp, by rw [if_neg hne]⟩
    have hLne : (s.variants.filterMap fun p₁ =>
        if variantTrials s.trials p₁.1 = [] then none
        else some (p₁.1, qmean (metricValues s.trials p₁.1 metric))) ≠ [] :=
      List.ne_nil_of_mem (hg p₀ hp₀ hne₀)
    cases hL : (s.variants.filterMap fun p₁ =>
        if variantTrials s.trials p₁.1 = [] then none
        else some (p₁.1, qmean (metricValues s.trials p₁.1 metric))) with
    | nil => exact absurd hL hLne
    | cons m ms =>
      have hmax_mem : pyMaxByVal m ms ∈ (m :: ms) := pyMaxByVal_mem m ms
      have hmax_src : ∃ p₁ ∈ s.variants,
          (if variantTrials s.trials p₁.1 = [] then none
           else some (p₁.1, qmean (metricValues s.trials p₁.1 metric))) =
            some (pyMaxByVal m ms) :=
        List.mem_filterMap.mp (hL ▸ hmax_mem)
      obtain ⟨p₁, hp₁, hsome⟩ := hmax_src
      have hp₁ne : variantTrials s.trials p₁.1 ≠ [] := by
        intro hc
        rw [if_pos hc] at hsome
        exact Option.noConfusion hsome
      rw [if_neg hp₁ne] at hsome
      have hpair : pyMaxByVal m ms = (p₁.1, qmean (metricValues s.trials p₁.1 metric)) :=
        (Option.some.injEq _ _ ▸ hsome).symm
      refine ⟨(pyMaxByVal m ms).1, ?_, ?_, ?_⟩
      · unfold getBestVariant
        rw [if_neg htr, variantMeans_ok hall, hL]
      · exact ⟨p₁, hp₁, by rw [hpair], hp₁ne⟩
      · intro p hp hne
        have hmem := hg p hp hne
        rw [hL] at hmem
        have hle := pyMaxByVal_ge m ms _ hmem
        rw [hpair] at hle ⊢
        exact hle

/-- Witness for C7: variant1 with `structure_score` trials `[9]` beats
variant2 with `[7]`. -/
theorem getBestVariant_spec_witness :
    (exBest.trials = [] → getBestVariant exBest "structure_score" = .ok (none, exBest)) ∧
    ((∃ p ∈ exBest.variants, variantTrials exBest.trials p.1 ≠ []) →
      ∃ best, getBestVariant exBest "structure_score" = .ok (some best, exBest) ∧
        (∃ p ∈ exBest.variants, p.1 = best ∧ variantTrials exBest.trials p.1 ≠ []) ∧
        ∀ p ∈ exBest.variants, variantTrials exBest.trials p.1 ≠ [] →
          qmean (metricValues exBest.trials p.1 "structure_score") ≤
            qmean (metricValues exBest.trials best "structure_score")) :=
  getBestVariant_spec exBest "structure_score" (by decide)

/-! ### Claim C9: per-variant comparison formulas -/

lemma compareEntries_ok {sqrtQ : ℚ → ℚ} {ttestP : List ℚ → List ℚ → ℚ}
    {trials : List Trial} {metric control : String} {cdata : List ℚ} {cmean cstd : ℚ}
    (h : ∀ t ∈ trials, (dlookup metric t.metrics).isSome)
    (vars : List (String × Variant)) :
    compareEntries sqrtQ ttestP trials metric control cdata cmean cstd vars =
      .ok (vars.filterMap fun p =>
        if p.1 = control then none
        else if metricValues trials p.1 metric = [] then none
        else some (p.1, variantEntry sqrtQ p.2 cmean cstd (metricValues trials p.1 metric)
          (ttestP cdata (metricValues trials p.1 metric)))) := by
  induction vars with
  | nil => rfl
  | cons p rest ih =>
    have hv : ∀ t ∈ variantTrials trials p.1, (dlookup metric t.metrics).isSome :=
      fun t ht => h t (List.mem_of_mem_filter ht)
    by_cases hc : p.1 = control
    · simp only [compareEntries, hc, if_true, eq_self_iff_true, ih, List.filterMap_cons]
    · by_cases hd : metricValues trials p.1 metric = []
      · simp only [compareEntries, hc, if_false, ite_false, variantData_ok hv, hd, if_true,
          ite_true, ih, List.filterMap_cons]
      · simp only [compareEntries, hc, if_false, ite_false, variantData_ok hv, hd, if_true,
          ite_true, ih, List.filterMap_cons]

/-- C9.  In the parameterized `analyze_results(metric, control_variant)`,
every non-control registered variant with trial data receives an entry
(keyed by its id) whose improvement is `((variant_mean / control_mean) - 1)
* 100`, whose significance flag holds exactly when the t-test p-value is
below 0.05, and whose effect size is `(variant_mean - control_mean)` divided
by the pooled standard deviation `sqrt((control_std² + variant_std²)/2)`;
variants without trial data are skipped from the report. -/
theorem analyzeResults_entry_formulas (sqrtQ : ℚ → ℚ) (ttestP : List ℚ → List ℚ → ℚ)
    (s : ExperimentState) (metric control : String) (cv : Variant)
    (hm : metric ∈ s.metrics)
    (hall : ∀ t ∈ s.trials, (dlookup metric t.metrics).isSome)
    (hcv : dlookup control s.variants = some cv)
    (hcd : variantTrials s.trials control ≠ [])
    (hkeys : (dkeys s.variants).Nodup) :
    isOkE (analyzeResults sqrtQ ttestP s metric control) = true ∧
    (∀ p ∈ s.variants, p.1 ≠ control → variantTrials s.trials p.1 ≠ [] →
      ∃ e, dlookup p.1 (analyzeVariantsOf (analyzeResults sqrtQ ttestP s metric control)) =
          some e ∧
        e.improvement = some ((qmean (metricValues s.trials p.1 metric) /
          qmean (metricValues s.trials control metric) - 1) * 100) ∧
        e.p_value = some (ttestP (metricValues s.trials control metric)
          (metricValues s.trials p.1 metric)) ∧
        (e.significant = some true ↔
          ttestP (metricValues s.trials control metric)
            (metricValues s.trials p.1 metric) < 5 / 100) ∧
        e.effect_size = some ((qmean (metricValues s.trials p.1 metric) -
            qmean (metricValues s.trials control metric)) /
          sqrtQ ((sqrtQ (qvar (metricValues s.trials control metric)) ^ 2 +
            sqrtQ (qvar (metricValues s.trials p.1 metric)) ^ 2) / 2))) ∧
    (∀ p ∈ s.variants, p.1 ≠ control → variantTrials s.trials p.1 = [] →
      dlookup p.1 (analyzeVariantsOf (analyzeResults sqrtQ ttestP s metric control)) =
        none) := by
  have hvc : ∀ t ∈ variantTrials s.trials control, (dlookup metric t.metrics).isSome :=
    fun t ht => hall t (List.mem_of_mem_filter ht)
  have h1 : (metric ∉ s.metrics) = False := eq_false (not_not_intro hm)
  have hcdne : (metricValues s.trials control metric = []) = False :=
    eq_false fun hc => hcd ((metricValues_eq_nil_iff hvc).mp hc)
  have hred : analyzeVariantsOf (analyzeResults sqrtQ ttestP s metric control) =
      (control,
        { name := cv.name,
          sample_size := (metricValues s.trials control metric).length,
          mean := qmean (metricValues s.trials control metric),
          std := sqrtQ (qvar (metricValues s.trials control metric)),
          p_value := none, effect_size := none, significant := none,
          improvement := none : VariantStats }) ::
        (s.variants.filterMap fun p =>
          if p.1 = control then none
          else if metricValues s.trials p.1 metric = [] then none
          else some (p.1, variantEntry sqrtQ p.2
            (qmean (metricValues s.trials control metric))
            (sqrtQ (qvar (metricValues s.trials control metric)))
            (metricValues s.trials p.1 metric)
            (ttestP (metricValues s.trials control metric)
              (metricValues s.trials p.1 metric)))) := by
    simp only [analyzeResults, h1, if_false, ite_false, variantData_ok hvc, hcdne,
      hcv, compareEntries_ok hall, analyzeVariantsOf]
  have hok : isOkE (analyzeResults sqrtQ ttestP s metric control) = true := by
    simp only [analyzeResults, h1, if_false, ite_false, variantData_ok hvc, hcdne,
      hcv, compareEntries_ok hall, isOkE]
  have hκ : ∀ (a : String × Variant) (q : String × VariantStats),
      (if a.1 = control then none
       else if metricValues s.trials a.1 metric = [] then none
       else some (a.1, variantEntry sqrtQ a.2
         (qmean (metricValues s.trials control metric))
         (sqrtQ (qvar (metricValues s.trials control metric)))
         (metricValues s.trials a.1 metric)
         (ttestP (metricValues s.trials control metric)
           (metricValues s.trials a.1 metric)))) = some q → q.1 = a.1 := by
    intro a q hq
    by_cases h₁ : a.1 = control
    · rw [if_pos h₁] at hq
      exact Option.noConfusion hq
    · rw [if_neg h₁] at hq
      by_cases h₂ : metricValues s.trials a.1 metric = []
      · rw [if_pos h₂] at hq
        exact Option.noConfusion hq
      · rw [if_neg h₂] at hq
        exact congrArg Prod.fst (Option.some.inj hq).symm
  refine ⟨hok, ?_, ?_⟩
  · intro p hp hpc hpd
    have hpvne : (metricValues s.trials p.1 metric) ≠ [] := by
      intro hc
      exact hpd ((metricValues_eq_nil_iff
        (fun t ht => hall t (List.mem_of_mem_filter ht))).mp hc)
    have hf : (if p.1 = control then none
        else if metricValues s.trials p.1 metric = [] then none
        else some (p.1, variantEntry sqrtQ p.2
          (qmean (metricValues s.trials control metric))
          (sqrtQ (qvar (metricValues s.trials control metric)))
          (metricValues s.trials p.1 metric)
          (ttestP (metricValues s.trials control metric)
            (metricValues s.trials p.1 metric)))) =
        some (p.1, variantEntry sqrtQ p.2
          (qmean (metricValues s.trials control metric))
          (sqrtQ (qvar (metricValues s.trials control metric)))
          (metricValues s.trials p.1 metric)
          (ttestP (metricValues s.trials control metric)
            (metricValues s.trials p.1 metric))) := by
      rw [if_neg hpc, if_neg hpvne]
    have hstep : dlookup p.1 (analyzeVariantsOf
        (analyzeResults sqrtQ ttestP s metric control)) =
        some (variantEntry sqrtQ p.2
          (qmean (metricValues s.trials control metric))
          (sqrtQ (qvar (metricValues s.trials control metric)))
          (metricValues s.trials p.1 metric)
          (ttestP (metricValues s.trials control metric)
            (metricValues s.trials p.1 metric))) := by
      rw [hred]
      have hnc : ¬ control = p.1 := fun hc => hpc hc.symm
      simp only [dlookup, hnc, if_false]
      have hlk := dlookup_filterMap_mem (κ := Prod.fst) hκ hkeys hp
      simp only [hlk, hf]
      rfl
    refine ⟨_, hstep, rfl, rfl, ?_, rfl⟩
    simp [variantEntry]
  · intro p hp hpc hpd
    have hpv : (metricValues s.trials p.1 metric) = [] := by
      unfold metricValues
      rw [hpd]
      rfl
    have hfn : (if p.1 = control then none
        else if metricValues s.trials p.1 metric = [] then none
        else some (p.1, variantEntry sqrtQ p.2
          (qmean (metricValues s.trials control metric))
          (sqrtQ (qvar (metricValues s.trials control metric)))
          (metricValues s.trials p.1 metric)
          (ttestP (metricValues s.trials control metric)
            (metricValues s.trials p.1 metric)))) =
        (none : Option (String × VariantStats)) := by
      rw [if_neg hpc, if_pos hpv]
    rw [hred]
    have hnc : ¬ control = p.1 := fun hc => hpc hc.symm
    simp only [dlookup, hnc, if_false]
    have hlk := dlookup_filterMap_mem (κ := Prod.fst) hκ hkeys hp
    simp only [hlk, hfn]
    rfl

/-- Witness for C9: control trials `[10, 10]`, test-variant trials
`[12, 12]` on metric `structure_score`. -/
theorem analyzeResults_entry_formulas_witness :
    isOkE (analyzeResults (fun q => q) (fun _ _ => 1 / 50) exCompare
      "structure_score" "c") = true ∧
    (∀ p ∈ exCompare.variants, p.1 ≠ "c" → variantTrials exCompare.trials p.1 ≠ [] →
      ∃ e, dlookup p.1 (analyzeVariantsOf (analyzeResults (fun q => q)
          (fun _ _ => 1 / 50) exCompare "structure_score" "c")) = some e ∧
        e.improvement = some ((qmean (metricValues exCompare.trials p.1 "structure_score") /
          qmean (metricValues exCompare.trials "c" "structure_score") - 1) * 100) ∧
        e.p_value = some ((fun _ _ => (1 : ℚ) / 50) (metricValues exCompare.trials "c" "structure_score")
          (metricValues exCompare.trials p.1 "structure_score")) ∧
        (e.significant = some true ↔
          (fun _ _ => (1 : ℚ) / 50) (metricValues exCompare.trials "c" "structure_score")
            (metricValues exCompare.trials p.1 "structure_score") < 5 / 100) ∧
        e.effect_size = some ((qmean (metricValues exCompare.trials p.1 "structure_score") -
            qmean (metricValues exCompare.trials "c" "structure_score")) /
          (fun q => q) ((((fun q => q) (qvar (metricValues exCompare.trials "c" "structure_score"))) ^ 2 +
            (((fun q => q) (qvar (metricValues exCompare.trials p.1 "structure_score")))) ^ 2) / 2))) ∧
    (∀ p ∈ exCompare.variants, p.1 ≠ "c" → variantTrials exCompare.trials p.1 = [] →
      dlookup p.1 (analyzeVariantsOf (analyzeResults (fun q => q)
        (fun _ _ => 1 / 50) exCompare "structure_score" "c")) = none) :=
  analyzeResults_entry_formulas (fun q => q) (fun _ _ => 1 / 50) exCompare
    "structure_score" "c" (exVariant "c" "control") (by decide) (by decide) (by decide)
    (by decide) (by decide)

/-! ### Claim C3: the parameterless, baseline-relative analysis -/

/-- C3.  The parameterless `analyze_results()` (modelled from the spec, see
`analyzeResultsBaseline`): with no trials it returns a report with
`total_trials = 0` and an empty per-variant performance mapping; otherwise,
when a registered variant whose name equals `"baseline"` case-insensitively
exists (first match of the search) and has at least one trial, it is
selected as the baseline, and every other variant with at least one trial is
reported under its name with, per declared metric with data on both sides,
the relative change `(variant_mean / baseline_mean) - 1`. -/
theorem analyzeResultsBaseline_spec (s : ExperimentState)
    (hkeys : (dkeys s.variants).Nodup)
    (hnames : (s.variants.map fun p => p.2.name).Nodup)
    (hmet : s.metrics.Nodup) :
    (s.trials = [] → analyzeResultsBaseline s =
      .ok { total_trials := 0, baseline_variant := none, variant_performance := [] }) ∧
    (∀ bid bv, (s.variants.find? fun p => strLower p.2.name = "baseline") = some (bid, bv) →
      variantTrials s.trials bid ≠ [] →
      ∃ r, analyzeResultsBaseline s = .ok r ∧
        r.total_trials = s.trials.length ∧
        r.baseline_variant = some bv.name ∧
        (∀ p ∈ s.variants, p.1 ≠ bid → variantTrials s.trials p.1 ≠ [] →
          ∃ perf, dlookup p.2.name r.variant_performance = some perf ∧
            ∀ m ∈ s.metrics,
              metricValues s.trials bid m ≠ [] → metricValues s.trials p.1 m ≠ [] →
              dlookup m perf =
                some (qmean (metricValues s.trials p.1 m) /
                  qmean (metricValues s.trials bid m) - 1))) := by
  constructor
  · intro h
    unfold analyzeResultsBaseline
    rw [if_pos h]
  · intro bid bv hfind hbt
    have htr : s.trials ≠ [] := by
      intro h
      apply hbt
      rw [variantTrials, h]
      rfl
    have hmem : (bid, bv) ∈ s.variants := List.mem_of_find?_eq_some hfind
    have hlook : dlookup bid s.variants = some bv := dlookup_eq_of_mem_nodup hkeys hmem
    have htrf : (s.trials = []) = False := eq_false htr
    have hbtT : (variantTrials s.trials bid ≠ []) = True := eq_true hbt
    have hbtF : (variantTrials s.trials bid = []) = False := eq_false hbt
    have hred : analyzeResultsBaseline s = .ok
        { total_trials := s.trials.length,
          baseline_variant := some bv.name,
          variant_performance := s.variants.filterMap fun p =>
            if p.1 = bid then none
            else if variantTrials s.trials p.1 = [] then none
            else some (p.2.name, s.metrics.filterMap fun m =>
              if metricValues s.trials bid m = [] ∨ metricValues s.trials p.1 m = []
              then none
              else some (m, qmean (metricValues s.trials p.1 m) /
                qmean (metricValues s.trials bid m) - 1)) } := by
      simp only [analyzeResultsBaseline, htrf, if_false, ite_false, hfind, hbtT,
        if_true, ite_true, hbtF, hlook, Option.map_some']
    refine ⟨_, hred, rfl, rfl, ?_⟩
    intro p hp hpb hpt
    have hκn : ∀ (a : String × Variant) (q : String × List (String × ℚ)),
        (if a.1 = bid then none
         else if variantTrials s.trials a.1 = [] then none
         else some (a.2.name, s.metrics.filterMap fun m =>
           if metricValues s.trials bid m = [] ∨ metricValues s.trials a.1 m = []
           then none
           else some (m, qmean (metricValues s.trials a.1 m) /
             qmean (metricValues s.trials bid m) - 1))) = some q → q.1 = a.2.name := by
      intro a q hq
      by_cases h₁ : a.1 = bid
      · rw [if_pos h₁] at hq
        exact Option.noConfusion hq
      · rw [if_neg h₁] at hq
        by_cases h₂ : variantTrials s.trials a.1 = []
        · rw [if_pos h₂] at hq
          exact Option.noConfusion hq
        · rw [if_neg h₂] at hq
          exact congrArg Prod.fst (Option.some.inj hq).symm
    have hlk := dlookup_filterMap_mem (κ := fun p₁ : String × Variant => p₁.2.name)
      hκn hnames hp
    have hfp : (if p.1 = bid then none
        else if variantTrials s.trials p.1 = [] then none
        else some (p.2.name, s.metrics.filterMap fun m =>
          if metricValues s.trials bid m = [] ∨ metricValues s.trials p.1 m = []
          then none
          else some (m, qmean (metricValues s.trials p.1 m) /
            qmean (metricValues s.trials bid m) - 1))) =
        some (p.2.name, s.metrics.filterMap fun m =>
          if metricValues s.trials bid m = [] ∨ metricValues s.trials p.1 m = []
          then none
          else some (m, qmean (metricValues s.trials p.1 m) /
            qmean (metricValues s.trials bid m) - 1)) := by
      rw [if_neg hpb, if_neg hpt]
    refine ⟨s.metrics.filterMap fun m =>
        if metricValues s.trials bid m = [] ∨ metricValues s.trials p.1 m = []
        then none
        else some (m, qmean (metricValues s.trials p.1 m) /
          qmean (metricValues s.trials bid m) - 1), ?_, ?_⟩
    · show dlookup p.2.name (List.filterMap _ s.variants) = _
      simp only [hlk, hfp]
      rfl
    · intro m hm hbm hvm
      have hκm : ∀ (m₁ : String) (q : String × ℚ),
          (if metricValues s.trials bid m₁ = [] ∨ metricValues s.trials p.1 m₁ = []
           then none
           else some (m₁, qmean (metricValues s.trials p.1 m₁) /
             qmean (metricValues s.trials bid m₁) - 1)) = some q → q.1 = m₁ := by
        intro m₁ q hq
        by_cases h₁ : metricValues s.trials bid m₁ = [] ∨ metricValues s.trials p.1 m₁ = []
        · rw [if_pos h₁] at hq
          exact Option.noConfusion hq
        · rw [if_neg h₁] at hq
          exact congrArg Prod.fst (Option.some.inj hq).symm
      have hmet' : (s.metrics.map fun m₁ : String => m₁).Nodup := by
        simpa using hmet
      have hlkm := dlookup_filterMap_mem (κ := fun m₁ : String => m₁) hκm hmet' hm
      have hfm : (if metricValues s.trials bid m = [] ∨ metricValues s.trials p.1 m = []
          then none
          else some (m, qmean (metricValues s.trials p.1 m) /
            qmean (metricValues s.trials bid m) - 1)) =
          some (m, qmean (metricValues s.trials p.1 m) /
            qmean (metricValues s.trials bid m) - 1) := by
        rw [if_neg (not_or.mpr ⟨hbm, hvm⟩)]
      simp only [hlkm, hfm]
      rfl

/-- Witness for C3 at the baseline-selection example store. -/
theorem analyzeResultsBaseline_spec_witness :
    (exBaseline.trials = [] → analyzeResultsBaseline exBaseline =
      .ok { total_trials := 0, baseline_variant := none, variant_performance := [] }) ∧
    (∀ bid bv,
      (exBaseline.variants.find? fun p => strLower p.2.name = "baseline") = some (bid, bv) →
      variantTrials exBaseline.trials bid ≠ [] →
      ∃ r, analyzeResultsBaseline exBaseline = .ok r ∧
        r.total_trials = exBaseline.trials.length ∧
        r.baseline_variant = some bv.name ∧
        (∀ p ∈ exBaseline.variants, p.1 ≠ bid →
          variantTrials exBaseline.trials p.1 ≠ [] →
          ∃ perf, dlookup p.2.name r.variant_performance = some perf ∧
            ∀ m ∈ exBaseline.metrics,
              metricValues exBaseline.trials bid m ≠ [] →
              metricValues exBaseline.trials p.1 m ≠ [] →
              dlookup m perf =
                some (qmean (metricValues exBaseline.trials p.1 m) /
                  qmean (metricValues exBaseline.trials bid m) - 1))) :=
  analyzeResultsBaseline_spec exBaseline (by decide) (by decide) (by decide)

end ArticleGen
